import Mathlib

/-!
Verification of the request-validation and output-sanitization core of the
IPSSI_PATCH backend (src/backend/server.js): the `validateUserId` and
`sanitizeComment` Express middlewares, and the routes POST /user,
POST /comment, GET /users, GET /comments that use them over the SQLite store.

JavaScript request values are embedded as `JSVal`; JavaScript numbers are
embedded as `JSNum` over ℚ together with NaN and the two infinities (none of
the proved properties depends on binary floating-point rounding: only on
whether `Number(x)` is NaN, which rounding never changes, and on exact small
values). The JavaScript `ToNumber` conversion on strings — the semantics of
`isNaN(id)` in `validateUserId` — is embedded by `strToNumber`, following the
ECMAScript StringNumericLiteral grammar: whitespace trimming, optional sign,
decimal literals with fraction and exponent, `Infinity`, and unsigned
`0x`/`0o`/`0b` radix literals.
-/

set_option autoImplicit false

namespace IpssiPatch

/-- Embedding of a JavaScript number: NaN, the infinities, or a finite value
(represented exactly as a rational). -/
inductive JSNum where
  | nan : JSNum
  | posInf : JSNum
  | negInf : JSNum
  | fin (q : ℚ) : JSNum
deriving DecidableEq, Repr

/-- Embedding of a JavaScript request-body field value: a string, a number, a
boolean, `null`, `undefined` (the field is absent), or a plain object. -/
inductive JSVal where
  | str (s : String) : JSVal
  | num (n : JSNum) : JSVal
  | bool (b : Bool) : JSVal
  | jsNull : JSVal
  | undefined : JSVal
  | obj : JSVal
deriving DecidableEq, Repr

/-- JavaScript truthiness test, negated: `!v` is `true` exactly on the falsy
values `""`, `0`, `NaN`, `false`, `null`, `undefined`. -/
def jsFalsy : JSVal → Bool
  | .str s => s = ""
  | .num .nan => true
  | .num (.fin q) => q = 0
  | .num _ => false
  | .bool b => !b
  | .jsNull => true
  | .undefined => true
  | .obj => false

/-- The JavaScript property access `v.length`: the length for a string,
`undefined` for every other value the middlewares can receive (numbers,
booleans and plain objects have no `length` property; the access itself does
not throw because the falsy values `null`/`undefined` are short-circuited
away by `!content ||` before `.length` is read). -/
def jsLength : JSVal → JSVal
  | .str s => .num (.fin s.length)
  | _ => .undefined

/-- Whether a `JSVal` is a string (strings are the only values carrying the
`.replace` method used by `sanitizeComment`). -/
def jsIsString : JSVal → Bool
  | .str _ => true
  | _ => false

/-- The `isNaN` test on an embedded JavaScript number. -/
def jsIsNaN : JSNum → Bool
  | .nan => true
  | _ => false

/-! ### The ECMAScript ToNumber conversion on strings -/

/-- JavaScript StrWhiteSpace characters (the ones expressible in request
bodies): space, tab, LF, VT, FF, CR, NBSP, BOM. -/
def isJsWhite (c : Char) : Bool :=
  c = ' ' || c = '\t' || c = '\n' || c = '\r' ||
  c.toNat = 11 || c.toNat = 12 || c.toNat = 0xa0 || c.toNat = 0xfeff

/-- Strip leading and trailing JavaScript whitespace. -/
def trimWhite (l : List Char) : List Char :=
  ((l.dropWhile isJsWhite).reverse.dropWhile isJsWhite).reverse

/-- Decimal digit test. -/
def isDigitCh (c : Char) : Bool := '0' ≤ c && c ≤ '9'

/-- Split a character list into its maximal leading run of decimal digits and
the remainder. -/
def takeDigits : List Char → List Char × List Char
  | [] => ([], [])
  | c :: cs =>
    if isDigitCh c then
      let p := takeDigits cs
      (c :: p.1, p.2)
    else ([], c :: cs)

/-- Numeric value of a decimal digit string. -/
def natOfDigits (l : List Char) : ℕ :=
  l.foldl (fun a c => 10 * a + (c.toNat - 48)) 0

/-- Hexadecimal digit test. -/
def isHexDigitCh (c : Char) : Bool :=
  isDigitCh c || ('a' ≤ c && c ≤ 'f') || ('A' ≤ c && c ≤ 'F')

/-- Numeric value of a hexadecimal digit. -/
def hexDigitVal (c : Char) : ℕ :=
  if isDigitCh c then c.toNat - 48
  else if 'a' ≤ c then c.toNat - 87
  else c.toNat - 55

/-- Numeric value of a hexadecimal digit string. -/
def natOfHex (l : List Char) : ℕ :=
  l.foldl (fun a c => 16 * a + hexDigitVal c) 0

/-- Octal digit test. -/
def isOctDigitCh (c : Char) : Bool := '0' ≤ c && c ≤ '7'

/-- Numeric value of an octal digit string. -/
def natOfOct (l : List Char) : ℕ :=
  l.foldl (fun a c => 8 * a + (c.toNat - 48)) 0

/-- Binary digit test. -/
def isBinDigitCh (c : Char) : Bool := c = '0' || c = '1'

/-- Numeric value of a binary digit string. -/
def natOfBin (l : List Char) : ℕ :=
  l.foldl (fun a c => 2 * a + (c.toNat - 48)) 0

/-- Parse an ECMAScript NonDecimalIntegerLiteral (`0x…`, `0o…`, `0b…`,
case-insensitive, at least one digit, consuming the whole input); these
literals admit no sign and no exponent. -/
def parseRadix : List Char → Option ℕ
  | '0' :: c :: rest =>
    if (c = 'x' || c = 'X') && !rest.isEmpty && rest.all isHexDigitCh then
      some (natOfHex rest)
    else if (c = 'o' || c = 'O') && !rest.isEmpty && rest.all isOctDigitCh then
      some (natOfOct rest)
    else if (c = 'b' || c = 'B') && !rest.isEmpty && rest.all isBinDigitCh then
      some (natOfBin rest)
    else none
  | _ => none

/-- Parse an optionally signed decimal digit string consuming the whole
input (the exponent of a decimal literal). -/
def parseSignedInt : List Char → Option ℤ
  | '+' :: r => if !r.isEmpty && r.all isDigitCh then some (natOfDigits r) else none
  | '-' :: r => if !r.isEmpty && r.all isDigitCh then some (-(natOfDigits r : ℤ)) else none
  | r => if !r.isEmpty && r.all isDigitCh then some (natOfDigits r) else none

/-- Parse what may follow the digits of a decimal literal: nothing (exponent
0) or an ExponentPart `e`/`E` followed by a signed digit string. -/
def parseExpTail : List Char → Option ℤ
  | [] => some 0
  | c :: r => if c = 'e' || c = 'E' then parseSignedInt r else none

/-- Split a finite ECMAScript StrUnsignedDecimalLiteral
(`digits [. digits] [exp]` or `. digits [exp]`, consuming the whole input)
into its integer digits, fraction digits and exponent. -/
def parseDecParts (l : List Char) : Option ((List Char × List Char) × ℤ) :=
  let p := takeDigits l
  match p.2 with
  | '.' :: r2 =>
    let f := takeDigits r2
    if p.1.isEmpty && f.1.isEmpty then none
    else (parseExpTail f.2).map (fun e => ((p.1, f.1), e))
  | _ =>
    if p.1.isEmpty then none
    else (parseExpTail p.2).map (fun e => ((p.1, ([] : List Char)), e))

/-- Exact rational value of a decimal literal with the given sign, integer
digits, fraction digits and decimal exponent:
`± (ipfp) * 10 ^ (e - |fp|)` where `ipfp` is the digit string `ip ++ fp`
read as a natural number. -/
def decValue (neg : Bool) (ip fp : List Char) (e : ℤ) : ℚ :=
  let m : ℕ := natOfDigits ip * 10 ^ fp.length + natOfDigits fp
  let sm : ℤ := if neg then -(m : ℤ) else (m : ℤ)
  let k : ℤ := e - (fp.length : ℤ)
  if 0 ≤ k then mkRat (sm * 10 ^ k.toNat) 1 else mkRat sm (10 ^ (-k).toNat)

/-- Parse a finite decimal literal and return its exact rational value,
applying the given sign. -/
def parseDecLit (neg : Bool) (l : List Char) : Option ℚ :=
  (parseDecParts l).map (fun pe => decValue neg pe.1.1 pe.1.2 pe.2)

/-- The ECMAScript ToNumber conversion of a string: trim whitespace; empty
trims to 0; otherwise an unsigned radix literal, or an optional sign followed
by `Infinity` or a decimal literal; anything else is NaN. -/
def strToNumber (l : List Char) : JSNum :=
  let t := trimWhite l
  if t.isEmpty then .fin 0
  else
    match parseRadix t with
    | some n => .fin n
    | none =>
      let sb : Bool × List Char :=
        match t with
        | '+' :: r => (false, r)
        | '-' :: r => (true, r)
        | r => (false, r)
      if sb.2 = ['I', 'n', 'f', 'i', 'n', 'i', 't', 'y'] then
        if sb.1 then .negInf else .posInf
      else
        match parseDecLit sb.1 sb.2 with
        | some q => .fin q
        | none => .nan

/-- The ECMAScript ToNumber conversion of a `JSVal` (the conversion performed
by the global `isNaN`): numbers are themselves, booleans map to 1/0, `null`
to 0, `undefined` to NaN, strings through `strToNumber`, and a plain object
to NaN (its string conversion is not numeric). -/
def toNumber : JSVal → JSNum
  | .num n => n
  | .bool b => .fin (if b then 1 else 0)
  | .jsNull => .fin 0
  | .undefined => .nan
  | .obj => .nan
  | .str s => strToNumber s.data

/-! ### The two middlewares -/

/-- Outcome of an Express middleware on a request: terminate the request with
a status and a JSON error payload, pass a value to the next handler, or raise
a JavaScript exception. -/
inductive MWResult (α : Type) where
  | reject (status : ℕ) (error : String) : MWResult α
  | next (a : α) : MWResult α
  | jsThrow (msg : String) : MWResult α
deriving DecidableEq, Repr

/-- The `validateUserId` middleware of server.js: reject with 400 and
`Invalid ID` when `!id || isNaN(id)`, otherwise call `next()` with
`req.body.id` untouched. -/
def validateUserId (id : JSVal) : MWResult JSVal :=
  if jsFalsy id || jsIsNaN (toNumber id) then .reject 400 "Invalid ID"
  else .next id

/-! ### The content sanitizer -/

/-- Global single-character replacement, the semantics of
`s.replace(/c/g, r)` for a single-character pattern `c`: every occurrence of
`c` is replaced by `r`, left to right. -/
def repChar (c : Char) (r : List Char) : List Char → List Char
  | [] => []
  | x :: xs => (if x = c then r else [x]) ++ repChar c r xs

/-- The characters of the escape sequence `&amp;`. -/
def ampL : List Char := ['&', 'a', 'm', 'p', ';']

/-- The characters of the escape sequence `&lt;`. -/
def ltL : List Char := ['&', 'l', 't', ';']

/-- The characters of the escape sequence `&gt;`. -/
def gtL : List Char := ['&', 'g', 't', ';']

/-- The characters of the escape sequence `&quot;`. -/
def quotL : List Char := ['&', 'q', 'u', 'o', 't', ';']

/-- The four-step replacement chain of `sanitizeComment` in server.js, in
source order: `&` first, then `<`, `>`, `"`. -/
def sanitizeList (l : List Char) : List Char :=
  repChar '\"' quotL (repChar '>' gtL (repChar '<' ltL (repChar '&' ampL l)))

/-- The sanitizer on strings: the replacement chain
`.replace(/&/g,"&amp;").replace(/</g,"&lt;").replace(/>/g,"&gt;").replace(/"/g,"&quot;")`. -/
def sanitize (s : String) : String := ⟨sanitizeList s.data⟩

/-- The `sanitizeComment` middleware of server.js: reject with 400 when
`!content || content.length === 0`; otherwise run the replacement chain on
`content` — which throws `TypeError: content.replace is not a function` when
the (truthy) content is not a string — and pass the sanitized string on. -/
def sanitizeComment (content : JSVal) : MWResult String :=
  if jsFalsy content || jsLength content = .num (.fin 0) then
    .reject 400 "Comment cannot be empty"
  else
    match content with
    | .str s => .next (sanitize s)
    | _ => .jsThrow "content.replace is not a function"

/-! ### The store and the routes -/

/-- A row of the `users` table: `id INTEGER PRIMARY KEY AUTOINCREMENT`,
`name TEXT`, `password TEXT` (the bcrypt hash). -/
structure User where
  id : ℕ
  name : String
  password : String
deriving DecidableEq, Repr

/-- A row of the `comments` table: `id INTEGER PRIMARY KEY AUTOINCREMENT`,
`content TEXT`. -/
structure Comment where
  id : ℕ
  content : String
deriving DecidableEq, Repr

/-- The SQLite database state: the two tables, rows in insertion order. -/
structure DB where
  users : List User
  comments : List Comment
deriving DecidableEq, Repr

/-- SQLite numeric-affinity conversion of a TEXT value: the whole string
(after whitespace trimming) must be an optionally signed decimal literal;
SQLite accepts no radix prefixes and no `Infinity` here. -/
def sqliteTextNum (l : List Char) : Option ℚ :=
  let t := trimWhite l
  match t with
  | [] => none
  | _ =>
    let sb : Bool × List Char :=
      match t with
      | '+' :: r => (false, r)
      | '-' :: r => (true, r)
      | r => (false, r)
    parseDecLit sb.1 sb.2

/-- The comparison `id = ?` in `db.get("SELECT id, name FROM users WHERE id
= ?", [id], …)` between the INTEGER `id` column and the bound JavaScript
value: numbers are bound as INTEGER/REAL (NaN as NULL, which matches
nothing), strings as TEXT and compared after numeric-affinity conversion (a
non-numeric TEXT never equals an INTEGER), booleans as 0/1, and
`null`/`undefined` as NULL. -/
def bindMatch (v : JSVal) (uid : ℕ) : Bool :=
  match v with
  | .num (.fin q) => q = (uid : ℚ)
  | .num _ => false
  | .str s =>
    match sqliteTextNum s.data with
    | some q => q = (uid : ℚ)
    | none => false
  | .bool b => (if b then (1 : ℕ) else 0) = uid
  | .jsNull => false
  | .undefined => false
  | .obj => false

/-- The `db.get` lookup: the first `users` row matching the bound value, if
any (`db.get` delivers at most one row). -/
def dbLookupUser (db : DB) (v : JSVal) : Option User :=
  db.users.find? (fun u => bindMatch v u.id)

/-- The next AUTOINCREMENT id for the `comments` table. -/
def nextCommentId (db : DB) : ℕ :=
  db.comments.foldl (fun a c => max a c.id) 0 + 1

/-- A record-store operation issued while handling a request. -/
inductive StoreOp where
  | lookupUser (v : JSVal) : StoreOp
  | insertComment (content : String) : StoreOp
deriving DecidableEq, Repr

/-- The JSON response a route sends. -/
inductive Response where
  | clientError (status : ℕ) (error : String) : Response
  | userRows (rows : List (ℕ × String)) : Response
  | userIdRows (rows : List ℕ) : Response
  | commentRows (rows : List (ℕ × String)) : Response
  | commentOk : Response
  | serverError (msg : String) : Response
deriving DecidableEq, Repr

/-- Everything observable about one handled request: the response sent, the
store operations performed, and the database state afterwards. -/
structure RouteResult where
  response : Response
  ops : List StoreOp
  db : DB
deriving DecidableEq, Repr

/-- The POST /user route: the `validateUserId` middleware, then
`db.get("SELECT id, name FROM users WHERE id = ?", [id])` and
`res.json(row ? [row] : [])`. -/
def postUser (db : DB) (body : JSVal) : RouteResult :=
  match validateUserId body with
  | .reject st e => ⟨.clientError st e, [], db⟩
  | .jsThrow m => ⟨.serverError m, [], db⟩
  | .next v =>
    ⟨.userRows
      (match dbLookupUser db v with
       | some u => [(u.id, u.name)]
       | none => []),
     [.lookupUser v], db⟩

/-- The POST /comment route: the `sanitizeComment` middleware, then
`db.run("INSERT INTO comments (content) VALUES (?)", [content])` and
`res.json({success: true})`. -/
def postComment (db : DB) (body : JSVal) : RouteResult :=
  match sanitizeComment body with
  | .reject st e => ⟨.clientError st e, [], db⟩
  | .jsThrow m => ⟨.serverError m, [], db⟩
  | .next c =>
    ⟨.commentOk, [.insertComment c],
     { db with comments := db.comments ++ [⟨nextCommentId db, c⟩] }⟩

/-- The GET /users route: `SELECT id FROM users` — ids only. -/
def getUsers (db : DB) : Response :=
  .userIdRows (db.users.map (fun u => u.id))

/-- Insert a comment into a list sorted by descending id. -/
def insertDescById (c : Comment) : List Comment → List Comment
  | [] => [c]
  | x :: xs => if x.id ≤ c.id then c :: x :: xs else x :: insertDescById c xs

/-- Sort comments by descending id (the `ORDER BY id DESC` of the query). -/
def sortDescById : List Comment → List Comment
  | [] => []
  | c :: cs => insertDescById c (sortDescById cs)

/-- The GET /comments route: `SELECT * FROM comments ORDER BY id DESC` — the
comment rows, newest id first. -/
def getComments (db : DB) : Response :=
  .commentRows ((sortDescById db.comments).map (fun c => (c.id, c.content)))

/-! ### Escape analysis of the sanitizer -/

/-- Per-character escaping: what the four-step replacement chain does to
each character of the original input (each source character is escaped
exactly once; characters introduced by an earlier replacement are never
re-escaped by a later one). -/
def escChar (c : Char) : List Char :=
  if c = '&' then ampL
  else if c = '<' then ltL
  else if c = '>' then gtL
  else if c = '"' then quotL
  else [c]

/-- Whether a character list begins with the body of one of the four escape
sequences — what must follow every `&` in properly escaped text. -/
def escSeqAt (l : List Char) : Bool :=
  ['a', 'm', 'p', ';'].isPrefixOf l || ['l', 't', ';'].isPrefixOf l ||
  ['g', 't', ';'].isPrefixOf l || ['q', 'u', 'o', 't', ';'].isPrefixOf l

/-- Text contains no unescaped markup-significant character: no `<`, `>` or
`"` occurs at all, and every `&` begins one of the escape sequences `&amp;`,
`&lt;`, `&gt;`, `&quot;`. -/
def noUnescaped : List Char → Bool
  | [] => true
  | c :: rest =>
    if c = '<' || c = '>' || c = '"' then false
    else if c = '&' then escSeqAt rest && noUnescaped rest
    else noUnescaped rest

theorem repChar_append (c : Char) (r : List Char) (a b : List Char) :
    repChar c r (a ++ b) = repChar c r a ++ repChar c r b := by
  induction a with
  | nil => rfl
  | cons x xs ih => simp [repChar, ih]

theorem sanitizeList_cons (c : Char) (l : List Char) :
    sanitizeList (c :: l) = escChar c ++ sanitizeList l := by
  by_cases h1 : c = '&'
  · subst h1; rfl
  by_cases h2 : c = '<'
  · subst h2; rfl
  by_cases h3 : c = '>'
  · subst h3; rfl
  by_cases h4 : c = '"'
  · subst h4; rfl
  simp [sanitizeList, repChar, escChar, h1, h2, h3, h4]

theorem sanitizeList_eq_flatMap (l : List Char) :
    sanitizeList l = l.flatMap escChar := by
  induction l with
  | nil => rfl
  | cons c t ih => rw [sanitizeList_cons, ih]; simp

theorem noUnescaped_escChar_append (c : Char) (rest : List Char) :
    noUnescaped (escChar c ++ rest) = noUnescaped rest := by
  by_cases h1 : c = '&'
  · subst h1; simp +decide [escChar, ampL, noUnescaped, escSeqAt, List.isPrefixOf]
  by_cases h2 : c = '<'
  · subst h2; simp +decide [escChar, ltL, noUnescaped, escSeqAt, List.isPrefixOf]
  by_cases h3 : c = '>'
  · subst h3; simp +decide [escChar, gtL, noUnescaped, escSeqAt, List.isPrefixOf]
  by_cases h4 : c = '"'
  · subst h4; simp +decide [escChar, quotL, noUnescaped, escSeqAt, List.isPrefixOf]
  simp [escChar, noUnescaped, h1, h2, h3, h4]

theorem noUnescaped_sanitizeList (l : List Char) :
    noUnescaped (sanitizeList l) = true := by
  induction l with
  | nil => rfl
  | cons c t ih => rw [sanitizeList_cons, noUnescaped_escChar_append]; exact ih

theorem sanitizeList_safe (l : List Char)
    (h : ∀ c ∈ l, c ≠ '&' ∧ c ≠ '<' ∧ c ≠ '>' ∧ c ≠ '"') :
    sanitizeList l = l := by
  induction l with
  | nil => rfl
  | cons c t ih =>
    obtain ⟨h1, h2, h3, h4⟩ := h c (List.mem_cons_self c t)
    have he : escChar c = [c] := by simp [escChar, h1, h2, h3, h4]
    rw [sanitizeList_cons, he, ih (fun x hx => h x (List.mem_cons_of_mem _ hx))]
    rfl

theorem escChar_length_pos (c : Char) : 1 ≤ (escChar c).length := by
  unfold escChar
  split
  · decide
  split
  · decide
  split
  · decide
  split
  · decide
  exact Nat.le_refl 1

theorem length_le_sanitizeList (l : List Char) :
    l.length ≤ (sanitizeList l).length := by
  induction l with
  | nil => exact Nat.le_refl 0
  | cons c t ih =>
    rw [sanitizeList_cons, List.length_append, List.length_cons]
    have h1 := escChar_length_pos c
    omega

theorem length_lt_sanitizeList_of_special (l : List Char)
    (h : ∃ c ∈ l, c = '&' ∨ c = '<' ∨ c = '>' ∨ c = '"') :
    l.length < (sanitizeList l).length := by
  induction l with
  | nil => obtain ⟨c, hc, _⟩ := h; cases hc
  | cons a t ih =>
    obtain ⟨c, hc, hspec⟩ := h
    rw [sanitizeList_cons, List.length_append, List.length_cons]
    rcases List.mem_cons.mp hc with heq | hmem
    · subst heq
      have h2 : 2 ≤ (escChar c).length := by
        rcases hspec with h | h | h | h <;> subst h <;> decide
      have h3 := length_le_sanitizeList t
      omega
    · have h1 := escChar_length_pos a
      have h4 := ih ⟨c, hmem, hspec⟩
      omega

/-! ### Route-level helper lemmas -/

theorem validateUserId_accepts (v : JSVal)
    (h1 : jsFalsy v = false) (h2 : jsIsNaN (toNumber v) = false) :
    validateUserId v = .next v := by
  simp [validateUserId, h1, h2]

theorem validateUserId_rejects (v : JSVal)
    (h : jsFalsy v = true ∨ jsIsNaN (toNumber v) = true) :
    validateUserId v = .reject 400 "Invalid ID" := by
  rcases h with h | h <;> simp [validateUserId, h]

theorem postUser_accepted (db : DB) (v : JSVal)
    (h : validateUserId v = .next v) :
    postUser db v =
      ⟨.userRows
        (match dbLookupUser db v with
         | some u => [(u.id, u.name)]
         | none => []),
       [.lookupUser v], db⟩ := by
  simp [postUser, h]

theorem postUser_rejected (db : DB) (v : JSVal)
    (h : validateUserId v = .reject 400 "Invalid ID") :
    postUser db v = ⟨.clientError 400 "Invalid ID", [], db⟩ := by
  simp [postUser, h]

theorem sanitizeComment_str (s : String) (h : s ≠ "") :
    sanitizeComment (.str s) = .next (sanitize s) := by
  have hlen : s.length ≠ 0 := by
    intro h0
    exact h (String.ext (List.length_eq_zero.mp h0))
  have hcast : ((s.length : ℚ) = 0) = False := by
    simp [Nat.cast_eq_zero, hlen]
  simp [sanitizeComment, jsFalsy, jsLength, h, hcast]

theorem sanitizeComment_falsy (v : JSVal) (h : jsFalsy v = true) :
    sanitizeComment v = .reject 400 "Comment cannot be empty" := by
  simp [sanitizeComment, h]

theorem postComment_accepted (db : DB) (s : String) (h : s ≠ "") :
    postComment db (.str s) =
      ⟨.commentOk, [.insertComment (sanitize s)],
       ⟨db.users, db.comments ++ [⟨nextCommentId db, sanitize s⟩]⟩⟩ := by
  simp [postComment, sanitizeComment_str s h]

theorem postComment_rejected (db : DB) (v : JSVal) (h : jsFalsy v = true) :
    postComment db v = ⟨.clientError 400 "Comment cannot be empty", [], db⟩ := by
  simp [postComment, sanitizeComment_falsy v h]

/-! ### Password independence -/

/-- Public projection of a user row: the fields the routes may reveal
(`SELECT id, name`). -/
def pubUser (u : User) : ℕ × String := (u.id, u.name)

theorem find?_map_pubUser (p : ℕ → Bool) :
    ∀ (l1 l2 : List User), l1.map pubUser = l2.map pubUser →
      (l1.find? (fun u => p u.id)).map pubUser =
        (l2.find? (fun u => p u.id)).map pubUser := by
  intro l1
  induction l1 with
  | nil =>
    intro l2 h
    cases l2 with
    | nil => rfl
    | cons b t2 => simp at h
  | cons a t ih =>
    intro l2 h
    cases l2 with
    | nil => simp at h
    | cons b t2 =>
      simp only [List.map_cons, List.cons.injEq] at h
      have hid : a.id = b.id := by
        have := congrArg Prod.fst h.1
        simpa [pubUser] using this
      by_cases hp : p a.id = true
      · have hpb : p b.id = true := by rw [← hid]; exact hp
        simp only [List.find?, hp, hpb, Option.map_some]
        simpa [pubUser] using h.1
      · have hpa : p a.id = false := by simpa using hp
        have hpb : p b.id = false := by rw [← hid]; exact hpa
        simp only [List.find?, hpa, hpb]
        exact ih t2 h.2

/-! ### The claims -/

/-- Claim C1: for every non-empty content string accepted by the Content
Sanitizer, the POST /comment handler persists exactly the sanitizer's
output, and that stored content contains no unescaped `&`, `<`, `>` or `"`
— every `&` in it begins one of the escape sequences `&amp;`, `&lt;`,
`&gt;`, `&quot;`. -/
theorem storedCommentSanitizedAndEscaped (s : String) (db : DB) (h : s ≠ "") :
    postComment db (.str s) =
      ⟨.commentOk, [.insertComment (sanitize s)],
       ⟨db.users, db.comments ++ [⟨nextCommentId db, sanitize s⟩]⟩⟩ ∧
    noUnescaped (sanitize s).data = true :=
  ⟨postComment_accepted db s h, noUnescaped_sanitizeList s.data⟩

/-- Witness for C1 at the concrete input `<b>hi</b>` on an empty store. -/
theorem storedCommentSanitizedAndEscaped_witness :
    postComment ⟨[], []⟩ (.str "<b>hi</b>") =
      ⟨.commentOk, [.insertComment (sanitize "<b>hi</b>")],
       ⟨[], [] ++ [⟨nextCommentId ⟨[], []⟩, sanitize "<b>hi</b>"⟩]⟩⟩ ∧
    noUnescaped (sanitize "<b>hi</b>").data = true :=
  storedCommentSanitizedAndEscaped "<b>hi</b>" ⟨[], []⟩ (by decide)

/-- Claim C2: the sanitizer escapes `&` first and `<`, `>`, `"` afterwards,
so each character of the original input is escaped exactly once and the `&`
characters introduced by the later replacements are never re-escaped (the
four-step chain equals a single per-character escaping pass); in particular
sanitizing `&<` yields exactly `&amp;&lt;`. -/
theorem sanitizerOrderSinglePass :
    (∀ l : List Char, sanitizeList l = l.flatMap escChar) ∧
    sanitize "&<" = "&amp;&lt;" :=
  ⟨sanitizeList_eq_flatMap, by decide⟩

/-- Claim C5: a comment submission whose content is empty or absent is
rejected with the 400 client error `Comment cannot be empty`, no insert is
issued, and the store is unchanged. -/
theorem emptyCommentRejectedNoStore (db : DB) (v : JSVal)
    (h : v = .str "" ∨ v = .jsNull ∨ v = .undefined) :
    postComment db v = ⟨.clientError 400 "Comment cannot be empty", [], db⟩ := by
  have hf : jsFalsy v = true := by rcases h with h | h | h <;> subst h <;> rfl
  exact postComment_rejected db v hf

/-- Witness for C5 at the concrete input of an empty content string. -/
theorem emptyCommentRejectedNoStore_witness :
    postComment ⟨[], []⟩ (.str "") =
      ⟨.clientError 400 "Comment cannot be empty", [], ⟨[], []⟩⟩ :=
  emptyCommentRejectedNoStore ⟨[], []⟩ (.str "") (Or.inl rfl)

/-- Counterexample to claim C6 as stated: applying the sanitizer to a string
that is itself the output of the sanitizer is not a no-op — the sanitizer
escapes every `&`, including the `&` of an existing escape sequence, so the
output of sanitizing `&` is escaped again to `&amp;amp;`. -/
theorem sanitizeNotIdempotent :
    sanitize (sanitize "&") = "&amp;amp;" ∧
    sanitize (sanitize "&") ≠ sanitize "&" := by
  decide

/-- Claim C6 as amended: the sanitizer is a no-op exactly on strings that
contain none of the four markup-significant characters — in both
directions: a string without `&`, `<`, `>`, `"` is left unchanged, and any
string containing one of them (in particular sanitizer output containing an
escape sequence, whose `&` is escaped again) is altered. -/
theorem sanitizeNoOpOnSafeChars (s : String) :
    sanitize s = s ↔ ∀ c ∈ s.data, c ≠ '&' ∧ c ≠ '<' ∧ c ≠ '>' ∧ c ≠ '"' := by
  obtain ⟨l⟩ := s
  constructor
  · intro heq c hc
    by_contra hs
    have hspec : c = '&' ∨ c = '<' ∨ c = '>' ∨ c = '"' := by
      by_cases h1 : c = '&'
      · exact Or.inl h1
      by_cases h2 : c = '<'
      · exact Or.inr (Or.inl h2)
      by_cases h3 : c = '>'
      · exact Or.inr (Or.inr (Or.inl h3))
      by_cases h4 : c = '"'
      · exact Or.inr (Or.inr (Or.inr h4))
      exact absurd ⟨h1, h2, h3, h4⟩ hs
    have hlt := length_lt_sanitizeList_of_special l ⟨c, hc, hspec⟩
    have hdata : sanitizeList l = l := congrArg String.data heq
    rw [hdata] at hlt
    exact Nat.lt_irrefl _ hlt
  · intro h
    show String.mk (sanitizeList l) = String.mk l
    rw [sanitizeList_safe l h]

/-- Witness for the amended C6: the all-safe input `hello` is unchanged,
and the input `&amp;`, which contains `&`, is not. -/
theorem sanitizeNoOpOnSafeChars_witness :
    sanitize "hello" = "hello" ∧ ¬ sanitize "&amp;" = "&amp;" :=
  ⟨(sanitizeNoOpOnSafeChars "hello").mpr (by decide),
   fun heq => by
    have h := (sanitizeNoOpOnSafeChars "&amp;").mp heq
    exact absurd (h '&' (by decide)).1 (by decide)⟩

/-- Counterexample to claim C3 as stated: the string `"3"` parses to the
number 3 and is accepted, but the value handed to the lookup stage is the
original string `"3"`, not the parsed number — `validateUserId` performs no
conversion before forwarding. -/
theorem validatorForwardsUnparsedCounterexample :
    toNumber (.str "3") = .fin 3 ∧
    validateUserId (.str "3") = .next (.str "3") ∧
    (postUser ⟨[], []⟩ (.str "3")).ops = [.lookupUser (.str "3")] ∧
    (postUser ⟨[], []⟩ (.str "3")).ops ≠ [.lookupUser (.num (.fin 3))] := by
  decide

/-- Claim C3 as amended: for every numeric identifier input the Identifier
Validator accepts, and the value handed onward to the lookup stage is the
submitted value itself, passed through unchanged and unparsed — a numeric
string reaches the store query as that same string. -/
theorem validatorAcceptsAndForwardsRaw (v : JSVal) (db : DB)
    (h1 : jsFalsy v = false) (h2 : jsIsNaN (toNumber v) = false) :
    validateUserId v = .next v ∧ (postUser db v).ops = [.lookupUser v] := by
  have ha := validateUserId_accepts v h1 h2
  exact ⟨ha, by rw [postUser_accepted db v ha]⟩

/-- Witness for the amended C3 at the numeric inputs `"7"`. -/
theorem validatorAcceptsAndForwardsRaw_witness :
    validateUserId (.str "7") = .next (.str "7") ∧
    (postUser ⟨[], []⟩ (.str "7")).ops = [.lookupUser (.str "7")] :=
  validatorAcceptsAndForwardsRaw (.str "7") ⟨[], []⟩ (by decide) (by decide)

/-- Claim C4: every identifier input that is empty, absent (`null` or
`undefined`), or not cleanly coercible to a number — non-numeric strings,
including numeric-looking strings with trailing garbage, all of which
coerce to NaN — is rejected with the 400 client error `Invalid ID`, no
store lookup is issued, and the database is untouched. -/
theorem invalidIdRejectedNoStore (db : DB) (v : JSVal)
    (h : v = .str "" ∨ v = .jsNull ∨ v = .undefined ∨ jsIsNaN (toNumber v) = true) :
    postUser db v = ⟨.clientError 400 "Invalid ID", [], db⟩ := by
  have hr : validateUserId v = .reject 400 "Invalid ID" := by
    rcases h with h | h | h | h
    · exact validateUserId_rejects v (Or.inl (by subst h; rfl))
    · exact validateUserId_rejects v (Or.inl (by subst h; rfl))
    · exact validateUserId_rejects v (Or.inl (by subst h; rfl))
    · exact validateUserId_rejects v (Or.inr h)
  exact postUser_rejected db v hr

/-- Witness for C4 at the trailing-garbage input `"3abc"`. -/
theorem invalidIdRejectedNoStore_witness :
    postUser ⟨[], []⟩ (.str "3abc") =
      ⟨.clientError 400 "Invalid ID", [], ⟨[], []⟩⟩ :=
  invalidIdRejectedNoStore ⟨[], []⟩ (.str "3abc")
    (Or.inr (Or.inr (Or.inr (by decide))))

/-- Counterexample to claim C7 as stated: on a truthy non-string content
value — here the number 7 — the Content Sanitizer neither passes the
request on nor rejects it with its designated 4xx error: the call
`content.replace(…)` raises `TypeError: content.replace is not a
function`. -/
theorem sanitizeCommentThrowsOnNumber :
    sanitizeComment (.num (.fin 7)) = .jsThrow "content.replace is not a function" ∧
    sanitizeComment (.num (.fin 7)) ≠ .reject 400 "Comment cannot be empty" := by
  decide

/-- Claim C7 as amended: `validateUserId` never throws — for every input of
any type it either forwards the value or rejects with `Invalid ID`;
`sanitizeComment` likewise forwards or rejects on every string and on every
falsy value, but on truthy non-string content (a number, a boolean, or an
object) it raises a TypeError instead of terminating the request with its
client error. -/
theorem validatorOutcomes (v : JSVal) :
    (validateUserId v = .next v ∨ validateUserId v = .reject 400 "Invalid ID") ∧
    (jsFalsy v = true → sanitizeComment v = .reject 400 "Comment cannot be empty") ∧
    (∀ s : String, v = .str s →
      sanitizeComment v = .next (sanitize s) ∨
      sanitizeComment v = .reject 400 "Comment cannot be empty") ∧
    (jsIsString v = false → jsFalsy v = false →
      sanitizeComment v = .jsThrow "content.replace is not a function") := by
  refine ⟨?_, fun h => sanitizeComment_falsy v h, ?_, ?_⟩
  · by_cases hc : jsFalsy v = true ∨ jsIsNaN (toNumber v) = true
    · exact Or.inr (validateUserId_rejects v hc)
    · push_neg at hc
      have h1 : jsFalsy v = false := by simpa using hc.1
      have h2 : jsIsNaN (toNumber v) = false := by simpa using hc.2
      exact Or.inl (validateUserId_accepts v h1 h2)
  · rintro s rfl
    by_cases hs : s = ""
    · exact Or.inr (sanitizeComment_falsy _ (by subst hs; rfl))
    · exact Or.inl (sanitizeComment_str s hs)
  · intro hstr hf
    cases v with
    | str s => simp [jsIsString] at hstr
    | num n => simp [sanitizeComment, jsLength, hf]
    | bool b => simp [sanitizeComment, jsLength, hf]
    | jsNull => simp [jsFalsy] at hf
    | undefined => simp [jsFalsy] at hf
    | obj => simp [sanitizeComment, jsLength, hf]

/-- Witness for the amended C7 at the concrete truthy number 2. -/
theorem validatorOutcomes_witness :
    (validateUserId (.num (.fin 2)) = .next (.num (.fin 2)) ∨
     validateUserId (.num (.fin 2)) = .reject 400 "Invalid ID") ∧
    sanitizeComment (.num (.fin 2)) = .jsThrow "content.replace is not a function" :=
  ⟨(validatorOutcomes (.num (.fin 2))).1,
   (validatorOutcomes (.num (.fin 2))).2.2.2 (by decide) (by decide)⟩

/-- Claim C8: for every identifier input the validator accepts, the POST
/user lookup responds with a sequence of length zero or one — the single
matching row (projected to id and name) when a stored user matches the
bound value, and the empty sequence when none does. -/
theorem lookupReturnsZeroOrOne (db : DB) (v : JSVal)
    (hacc : validateUserId v = .next v) :
    (∃ rows : List (ℕ × String),
       (postUser db v).response = .userRows rows ∧ rows.length ≤ 1) ∧
    ((∃ u ∈ db.users, bindMatch v u.id = true) →
       ∃ u, u ∈ db.users ∧ bindMatch v u.id = true ∧
         (postUser db v).response = .userRows [(u.id, u.name)]) ∧
    ((∀ u ∈ db.users, bindMatch v u.id = false) →
       (postUser db v).response = .userRows []) := by
  rw [postUser_accepted db v hacc]
  refine ⟨?_, ?_, ?_⟩
  · cases hfind : dbLookupUser db v with
    | none => exact ⟨[], by simp [hfind], by simp⟩
    | some u => exact ⟨[(u.id, u.name)], by simp [hfind], by simp⟩
  · rintro ⟨u, hu, hm⟩
    have hsome : (db.users.find? (fun u => bindMatch v u.id)).isSome :=
      List.find?_isSome.mpr ⟨u, hu, hm⟩
    obtain ⟨w, hw⟩ := Option.isSome_iff_exists.mp hsome
    have hwl : dbLookupUser db v = some w := hw
    have hpw := @List.find?_some _ (fun u => bindMatch v u.id) w db.users hw
    exact ⟨w, List.mem_of_find?_eq_some hw, hpw, by simp [hwl]⟩
  · intro hall
    have hnone : dbLookupUser db v = none := by
      simp only [dbLookupUser, List.find?_eq_none]
      intro u hu
      simp [hall u hu]
    simp [hnone]

/-- Witness for C8 on a one-user store with the accepted input `"1"`. -/
theorem lookupReturnsZeroOrOne_witness :
    (∃ rows : List (ℕ × String),
       (postUser ⟨[⟨1, "alice", "hash"⟩], []⟩ (.str "1")).response =
         .userRows rows ∧ rows.length ≤ 1) ∧
    ∃ u, u ∈ (⟨[⟨1, "alice", "hash"⟩], []⟩ : DB).users ∧
      bindMatch (.str "1") u.id = true ∧
      (postUser ⟨[⟨1, "alice", "hash"⟩], []⟩ (.str "1")).response =
        .userRows [(u.id, u.name)] :=
  ⟨(lookupReturnsZeroOrOne ⟨[⟨1, "alice", "hash"⟩], []⟩ (.str "1") (by decide)).1,
   (lookupReturnsZeroOrOne ⟨[⟨1, "alice", "hash"⟩], []⟩ (.str "1") (by decide)).2.1
     ⟨⟨1, "alice", "hash"⟩, by decide, by decide⟩⟩

/-- Claim C9: no response of the user-listing, identifier-lookup or
comment-listing operation depends on stored credentials: for any two store
states that agree on user ids and names and on comments — and may differ
arbitrarily in the stored passwords — each operation's response is
identical, so no response ever carries a credential. -/
theorem credentialNoninterference (a b : DB)
    (hu : a.users.map pubUser = b.users.map pubUser)
    (hc : a.comments = b.comments) :
    getUsers a = getUsers b ∧ getComments a = getComments b ∧
    ∀ v, (postUser a v).response = (postUser b v).response := by
  refine ⟨?_, ?_, ?_⟩
  · have h := congrArg (List.map Prod.fst) hu
    simpa [getUsers, List.map_map, Function.comp, pubUser] using h
  · simp [getComments, hc]
  · intro v
    cases hval : validateUserId v with
    | reject st e => simp [postUser, hval]
    | jsThrow m => simp [postUser, hval]
    | next w =>
      simp only [postUser, hval]
      have hfind := find?_map_pubUser (fun i => bindMatch w i) a.users b.users hu
      cases h1 : a.users.find? (fun u => bindMatch w u.id) with
      | none =>
        cases h2 : b.users.find? (fun u => bindMatch w u.id) with
        | none => simp [dbLookupUser, h1, h2]
        | some u2 => rw [h1, h2] at hfind; simp [pubUser] at hfind
      | some u1 =>
        cases h2 : b.users.find? (fun u => bindMatch w u.id) with
        | none => rw [h1, h2] at hfind; simp [pubUser] at hfind
        | some u2 =>
          rw [h1, h2] at hfind
          simp at hfind
          have hid : u1.id = u2.id := congrArg Prod.fst hfind
          have hname : u1.name = u2.name := congrArg Prod.snd hfind
          simp [dbLookupUser, h1, h2, hid, hname]

/-- Witness for C9: two one-user stores that differ only in the stored
password hash produce identical responses on every operation. -/
theorem credentialNoninterference_witness :
    getUsers ⟨[⟨1, "alice", "hashA"⟩], []⟩ = getUsers ⟨[⟨1, "alice", "hashB"⟩], []⟩ ∧
    getComments ⟨[⟨1, "alice", "hashA"⟩], []⟩ = getComments ⟨[⟨1, "alice", "hashB"⟩], []⟩ ∧
    ∀ v, (postUser ⟨[⟨1, "alice", "hashA"⟩], []⟩ v).response =
         (postUser ⟨[⟨1, "alice", "hashB"⟩], []⟩ v).response :=
  credentialNoninterference ⟨[⟨1, "alice", "hashA"⟩], []⟩ ⟨[⟨1, "alice", "hashB"⟩], []⟩
    (by decide) (by decide)

/-- Claim C10: inputs that are not canonical positive-integer identifiers
pass the Identifier Validator and reach the store query: the strings
`"-5"`, `"3.5"`, `"0x1A"`, `"Infinity"` and the whitespace-padded `" 3 "`
are all accepted and forwarded, as those very strings, to the lookup;
moreover `"-5"` coerces to a negative value, `"3.5"` to a non-integer and
`"Infinity"` to the infinite value, so acceptance is not limited to
positive integers. -/
theorem nonPositiveIntegerIdsReachStore :
    (validateUserId (.str "-5") = .next (.str "-5") ∧
     (postUser ⟨[], []⟩ (.str "-5")).ops = [.lookupUser (.str "-5")]) ∧
    (validateUserId (.str "3.5") = .next (.str "3.5") ∧
     (postUser ⟨[], []⟩ (.str "3.5")).ops = [.lookupUser (.str "3.5")]) ∧
    (validateUserId (.str "0x1A") = .next (.str "0x1A") ∧
     (postUser ⟨[], []⟩ (.str "0x1A")).ops = [.lookupUser (.str "0x1A")]) ∧
    (validateUserId (.str "Infinity") = .next (.str "Infinity") ∧
     (postUser ⟨[], []⟩ (.str "Infinity")).ops = [.lookupUser (.str "Infinity")]) ∧
    (validateUserId (.str " 3 ") = .next (.str " 3 ") ∧
     (postUser ⟨[], []⟩ (.str " 3 ")).ops = [.lookupUser (.str " 3 ")]) ∧
    toNumber (.str "-5") = .fin (mkRat (-5) 1) ∧
    toNumber (.str "3.5") = .fin (mkRat 7 2) ∧
    toNumber (.str "Infinity") = .posInf := by
  decide

end IpssiPatch
